import Mathlib

/-!
Shallow embedding of the MikuMaid_reborn dual-mention interaction hooks
(`src/cogs/chat_hooks/teto_miku_interaction.py` and
`src/cogs/chat_hooks/miku_fear_line_generator.py`) together with proofs of
the behavioural claims about them.

Python strings are modelled as Lean `String`s; the Python string helpers
used by the hooks (`str.strip`, `str.splitlines`, `str.replace`,
`str.lower`, substring membership, `str.join`) are re-implemented below by
structural recursion so that every definition evaluates inside the kernel.
`json.loads` is an external collaborator and is modelled as an abstract
decoding oracle `String → Option JValue` (`none` models a
`json.JSONDecodeError`).  The injected `normalize_model_reply` callback is a
plain function parameter, exactly as in the source.
-/

/-- Whitespace characters recognised by Python `str.strip` (ASCII subset,
which is all that the hook strings ever contain). -/
def isPySpace (c : Char) : Bool :=
  c = ' ' || c = '\t' || c = '\n' || c = '\r' || c = Char.ofNat 11 || c = Char.ofNat 12

/-- Python `str.strip()`: drop leading and trailing whitespace. -/
def pyStrip (s : String) : String :=
  String.mk (((s.toList.dropWhile isPySpace).reverse.dropWhile isPySpace).reverse)

/-- Worker for `pySplitlines`: accumulates the current line (reversed) and
splits on `\r\n`, `\r` and `\n`, without a trailing empty line. -/
def splitlinesGo : List Char → List Char → List (List Char)
  | [], acc => if acc.isEmpty then [] else [acc.reverse]
  | '\r' :: '\n' :: rest, acc => acc.reverse :: splitlinesGo rest []
  | '\r' :: rest, acc => acc.reverse :: splitlinesGo rest []
  | '\n' :: rest, acc => acc.reverse :: splitlinesGo rest []
  | c :: rest, acc => splitlinesGo rest (c :: acc)

/-- Python `str.splitlines()` restricted to the usual line separators. -/
def pySplitlines (s : String) : List String :=
  (splitlinesGo s.toList []).map String.mk

/-- Boolean test that `pre` is an initial segment of the second list
(Python `str.startswith` on character lists). -/
def charsLead : List Char → List Char → Bool
  | [], _ => true
  | _ :: _, [] => false
  | a :: as, b :: bs => a == b && charsLead as bs

/-- Python substring membership `needle in hay` on character lists. -/
def charsSub (needle : List Char) : List Char → Bool
  | [] => needle.isEmpty
  | c :: rest => charsLead needle (c :: rest) || charsSub needle rest

/-- Python substring membership `needle in hay` on strings. -/
def strContains (hay needle : String) : Bool :=
  charsSub needle.toList hay.toList

/-- Python `hay.startswith(pre)`. -/
def pyStartsWith (hay pre : String) : Bool :=
  charsLead pre.toList hay.toList

/-- Worker for `pyReplace`; the fuel argument is consumed once per output
position, so fuel equal to the input length is always sufficient for a
non-empty pattern (the only kind the hooks use). -/
def replaceCharsFuel (pattern repl : List Char) : Nat → List Char → List Char
  | 0, s => s
  | _ + 1, [] => []
  | fuel + 1, c :: rest =>
    if !pattern.isEmpty && charsLead pattern (c :: rest) then
      repl ++ replaceCharsFuel pattern repl fuel (List.drop (pattern.length - 1) rest)
    else c :: replaceCharsFuel pattern repl fuel rest

/-- Python `s.replace(pattern, repl)` for the non-empty patterns used by the
hooks (the code fence marker and the template placeholders). -/
def pyReplace (s pattern repl : String) : String :=
  String.mk (replaceCharsFuel pattern.toList repl.toList s.toList.length s.toList)

/-- Python `str.lower()` (ASCII case folding, which covers the hook data). -/
def pyLower (s : String) : String :=
  String.mk (s.toList.map Char.toLower)

/-- Python `sep.join(parts)`. -/
def joinWith (sep : String) : List String → String
  | [] => ""
  | [x] => x
  | x :: y :: rest => x ++ sep ++ joinWith sep (y :: rest)

/-- Values produced by the `json.loads` collaborator.  Numbers are modelled
as integers; none of the verified claims depends on numeric payloads. -/
inductive JValue where
  | jnull
  | jbool (b : Bool)
  | jnum (n : Int)
  | jstr (s : String)
  | jarr (items : List JValue)
  | jobj (fields : List (String × JValue))

/-- Python `str(value)` applied to a decoded JSON value.  Scalar cases follow
Python exactly; container renderings are simplified (no claim inspects the
rendering of a nested container). -/
def pyStr : JValue → String
  | .jnull => "None"
  | .jbool true => "True"
  | .jbool false => "False"
  | .jnum n => toString n
  | .jstr s => s
  | .jarr _ => "[...]"
  | .jobj _ => "\x7b...\x7d"

/-- Python `dict.get(key)` on the field list of a decoded JSON object. -/
def lookupField : List (String × JValue) → String → Option JValue
  | [], _ => none
  | (k, v) :: rest, key => if k = key then some v else lookupField rest key

/-- Embeds the regex substitution of `HOOK_LINE_PREFIX_PATTERN`
(`^\s*(?:[-*]|\d+[.)])\s*`): leading whitespace, then a bullet (`-` or `*`)
or a number followed by `.` or `)`, then whitespace.  If the pattern does
not match, `re.sub` leaves the line unchanged. -/
def stripBulletMark (line : String) : String :=
  match line.toList.dropWhile isPySpace with
  | '-' :: tail => String.mk (tail.dropWhile isPySpace)
  | '*' :: tail => String.mk (tail.dropWhile isPySpace)
  | c :: tail =>
    if c.isDigit then
      match tail.dropWhile Char.isDigit with
      | '.' :: r => String.mk (r.dropWhile isPySpace)
      | ')' :: r => String.mk (r.dropWhile isPySpace)
      | _ => line
    else line
  | [] => line

/-- Embeds `MikuFearLineGenerator._extract_lines_from_text`.  `jdec` is the
abstract `json.loads` oracle.  The pair `sd` records the structured lines
found so far together with the (possibly re-bound) plain-text candidate,
mirroring the mutation of `candidate` on the `answer` path. -/
def extractLinesFromText (jdec : String → Option JValue) (text : String) : List String :=
  let c0 := pyStrip text
  let sd : List String × String :=
    if pyStartsWith c0 "[" || pyStartsWith c0 "\x7b" then
      match jdec c0 with
      | some (.jarr items) => ((items.map pyStr).map pyStrip, c0)
      | some (.jobj fields) =>
        match lookupField fields "lines" with
        | some (.jarr ls) => ((ls.map pyStr).map pyStrip, c0)
        | _ =>
          match lookupField fields "answer" with
          | some (.jstr a) => ([], a)
          | _ => ([], c0)
      | _ => ([], c0)
    else ([], c0)
  let parsedLines : List String :=
    if sd.1.isEmpty then
      let c2 := pyStrip (pyReplace sd.2 "```" "")
      ((pySplitlines c2).map (fun l => pyStrip (stripBulletMark l))).filter
        (fun l => l ≠ "")
    else sd.1
  parsedLines.filter (fun l => l ≠ "")

/-- Embeds `MikuFearLineGenerator._has_material_overlap`: one of the first
five material words must occur in the lower-cased concatenated line text. -/
def hasMaterialOverlap (lines material : List String) : Bool :=
  let haystack := pyLower (joinWith " " lines)
  (material.take 5).any (fun w => strContains haystack w)

/-- One fuel-indexed unwinding of the `while len(extended) < target` loop of
`_expand_lines`; `none` models that the fuel ran out before the loop
finished. -/
def expandWhile : Nat → List String → List String → Nat → Option (List String)
  | 0, _, _, _ => none
  | fuel + 1, base, ext, target =>
    if ext.length < target then expandWhile fuel base (ext ++ base) target
    else some ext

/-- Embeds `_expand_lines` (textually identical in both hook classes).
`target + 1` units of fuel always suffice when the base list is non-empty,
because every iteration grows the list by at least one element;
`none` therefore models genuine non-termination of the Python loop, which
can happen only for an empty base list. -/
def expandLines (base : List String) (target : Nat) : Option (List String) :=
  if target ≤ base.length then some (base.take target)
  else (expandWhile (target + 1) base base target).map (fun ext => ext.take target)

/-- Totalised `_expand_lines`, used at call sites where the base list is
known to be non-empty (so the loop terminates and the default is never
taken). -/
def expandTotal (base : List String) (target : Nat) : List String :=
  (expandLines base target).getD []

/-- The three `RuntimeError` conditions raised by `_parse_lines`. -/
inductive ParseError where
  | emptyOutput
  | unparseableOutput
  | ignoredMaterial
deriving DecidableEq

/-- The Discord mention token `<@id>`. -/
def mentionToken (id : Nat) : String :=
  "<@" ++ toString id ++ ">"

/-- The mention-fix step of `_parse_lines`: if the token occurs nowhere in
the joined line text, prepend it to the first line. -/
def fixMention (id : Nat) : List String → List String
  | [] => []
  | l0 :: rest =>
    if strContains (joinWith " " (l0 :: rest)) (mentionToken id) then l0 :: rest
    else (mentionToken id ++ " " ++ l0) :: rest

/-- Embeds `MikuFearLineGenerator._parse_lines`.  Raised `RuntimeError`s are
modelled as `Except.error`. -/
def parseLines (normalize : String → String) (jdec : String → Option JValue)
    (rawOutput : String) (lineCount : Nat) (requiredMentionId : Nat)
    (materialWords : List String) : Except ParseError (List String) :=
  let normalized := pyStrip (normalize rawOutput)
  if normalized = "" then .error .emptyOutput
  else
    match extractLinesFromText jdec normalized with
    | [] => .error .unparseableOutput
    | l0 :: rest =>
      let fixed := fixMention requiredMentionId (l0 :: rest)
      if !materialWords.isEmpty && !hasMaterialOverlap fixed materialWords then
        .error .ignoredMaterial
      else .ok (expandTotal fixed lineCount)

/-- The configuration keys consumed by the hooks (`config.Settings`). -/
structure Settings where
  dual_mention_hook_enabled : Bool
  teto_bot_id : Nat
  miku_bot_id : Nat
  teto_wait_miku_timeout_seconds : ℚ
  teto_fear_message_count : Int

/-- The slice of a `discord.Message` that the hooks read: id, channel id,
author id, whether the author is a bot, and the mentioned member ids. -/
structure Message where
  id : Nat
  channel_id : Nat
  author_id : Nat
  author_bot : Bool
  mentions : List Nat

/-- Embeds the `PendingDualMention` dataclass.  The monotonic clock is
modelled by the rationals. -/
structure PendingDualMention where
  created_at : ℚ
  trigger_message_id : Nat
deriving DecidableEq

/-- A background sequence task at the moment of its creation: the arguments
handed to `_run_sequence` by `asyncio.create_task`. -/
structure LaunchedTask where
  channel_id : Nat
  trigger_message_id : Nat
  lines : List String
deriving DecidableEq

/-- The mutable state of `TetoMikuDualMentionHook` (teto_miku_interaction.py):
the per-channel pending table (a dict, modelled as a function to `Option`),
the active-channel set and the task registry (as launch records). -/
structure HookState where
  pending : Nat → Option PendingDualMention
  active : Finset Nat
  tasks : List LaunchedTask

/-- Embeds `_expire_pending`: every entry whose age exceeds the timeout is
removed; the rest of the table is untouched. -/
def expirePending (now timeout : ℚ) (pending : Nat → Option PendingDualMention) :
    Nat → Option PendingDualMention :=
  fun ch =>
    match pending ch with
    | some p => if now - p.created_at > timeout then none else some p
    | none => none

/-- Embeds `dict.pop(channel_id, None)`: the looked-up entry together with
the table with that key removed. -/
def takePending (pending : Nat → Option PendingDualMention) (ch : Nat) :
    Option PendingDualMention × (Nat → Option PendingDualMention) :=
  (pending ch, fun c => if c = ch then none else pending c)

/-- Embeds `_is_dual_mention_trigger` (textually identical in both files):
both bot ids must occur among the mentioned member ids of the message. -/
def isDualMentionTrigger (s : Settings) (msg : Message) : Bool :=
  decide (s.teto_bot_id ∈ msg.mentions) && decide (s.miku_bot_id ∈ msg.mentions)

/-- The static `TETO_FEAR_LINES` templates. -/
def TETO_FEAR_LINES : List String :=
  ["Oh... <@{miku_id}>, you are here too?",
   "I heard you, Miku. You speak first...",
   "Wait, please do not look at me like that...",
   "I will behave, I am not messing around...",
   "Can I stand a bit farther away...?",
   "Okay... I will answer after you...",
   "Alright, I will be good. Please do not scold me..."]

/-- The static `MIKU_TEASE_LINES` templates. -/
def MIKU_TEASE_LINES : List String :=
  ["Hey <@{teto_id}>, relax. I run this chat now.",
   "If there is drama, I will win it in one verse.",
   "Teto, keep up. English mode is on.",
   "User tagged both of us, so I speak first as usual.",
   "No panic. Follow my tempo.",
   "Stay sharp, Kasane. I am watching.",
   "Alright chat, Miku has the floor."]

/-- The clamped per-sequence line count `max(1, teto_fear_message_count)`. -/
def targetCount (s : Settings) : Nat :=
  (max 1 s.teto_fear_message_count).toNat

/-- Embeds `_build_teto_fear_lines`: substitute the Miku id into the
templates and expand to the clamped target count. -/
def buildTetoFearLines (s : Settings) : List String :=
  expandTotal (TETO_FEAR_LINES.map
    (fun t => pyReplace t "{miku_id}" (toString s.miku_bot_id))) (targetCount s)

/-- Embeds `_build_miku_tease_lines` of teto_miku_interaction.py (the static
strategy): substitute the Teto id into the templates and expand. -/
def buildMikuTeaseLinesStatic (s : Settings) : List String :=
  expandTotal (MIKU_TEASE_LINES.map
    (fun t => pyReplace t "{teto_id}" (toString s.teto_bot_id))) (targetCount s)

/-- Embeds `_handle_teto_bot_message`: a bot message by Miku consumes the
pending entry of that channel (if any), launches the Teto fear sequence, and always
reports the event as unhandled (`False`). -/
def handleTetoBotMessage (s : Settings) (msg : Message) (st : HookState) :
    Bool × HookState :=
  if msg.author_id ≠ s.miku_bot_id then (false, st)
  else
    let res := takePending st.pending msg.channel_id
    match res.1 with
    | none => (false, { st with pending := res.2 })
    | some p =>
      (false,
       { st with
         pending := res.2
         tasks := st.tasks ++
           [⟨msg.channel_id, p.trigger_message_id, buildTetoFearLines s⟩] })

/-- Embeds `_handle_as_teto`: bot messages are delegated to the partner
handler; a user dual-mention records a pending entry (last-trigger-wins
upsert) and suppresses the default reply. -/
def handleAsTeto (s : Settings) (now : ℚ) (msg : Message) (st : HookState) :
    Bool × HookState :=
  if msg.author_bot then handleTetoBotMessage s msg st
  else if isDualMentionTrigger s msg then
    (true,
     { st with
       pending := fun c =>
         if c = msg.channel_id then some ⟨now, msg.id⟩ else st.pending c })
  else (false, st)

/-- Embeds `_handle_as_miku` of teto_miku_interaction.py: a user
dual-mention immediately launches the Miku tease sequence and suppresses the
default reply. -/
def handleAsMiku (s : Settings) (msg : Message) (st : HookState) :
    Bool × HookState :=
  if msg.author_bot then (false, st)
  else if !isDualMentionTrigger s msg then (false, st)
  else
    (true,
     { st with
       tasks := st.tasks ++
         [⟨msg.channel_id, msg.id, buildMikuTeaseLinesStatic s⟩] })

/-- Embeds `TetoMikuDualMentionHook.handle_message`
(teto_miku_interaction.py).  `me` is the id of `bot.user` (`none` while not
logged in) and `now` is the monotonic clock at this handling pass. -/
def handleMessage (s : Settings) (me : Option Nat) (now : ℚ) (msg : Message)
    (st : HookState) : Bool × HookState :=
  if !s.dual_mention_hook_enabled then (false, st)
  else
    match me with
    | none => (false, st)
    | some meId =>
      let st1 :=
        { st with
          pending := expirePending now s.teto_wait_miku_timeout_seconds st.pending }
      if msg.channel_id ∈ st1.active then (false, st1)
      else if meId = s.teto_bot_id then handleAsTeto s now msg st1
      else if meId = s.miku_bot_id then handleAsMiku s msg st1
      else (false, st1)

/-- Outcome of one loop iteration of `_run_sequence` (the typing delay plus
the send of one line): it succeeds, raises a delivery `Exception`, or the
task is cancelled at one of its await points. -/
inductive StepOutcome where
  | ok
  | deliveryError
  | cancelled
deriving DecidableEq

/-- The exceptions that can escape the delivery loop body. -/
inductive SeqExn where
  | delivery
  | cancelled
deriving DecidableEq

/-- How a `_run_sequence` invocation ends: normal completion, a delivery
error caught by the `except Exception` clause, or a cancellation that
propagates past the `finally` block. -/
inductive RunExit where
  | completed
  | errorCaught
  | cancelledPropagated
deriving DecidableEq

/-- The `for` loop of `_run_sequence`: deliver each line in order, stopping
at the first delivery error or cancellation.  `oracle i` is the outcome of
the i-th iteration. -/
def deliverFrom (oracle : Nat → StepOutcome) : Nat → List String → Except SeqExn Unit
  | _, [] => .ok ()
  | i, _ :: rest =>
    match oracle i with
    | .ok => deliverFrom oracle (i + 1) rest
    | .deliveryError => .error .delivery
    | .cancelled => .error .cancelled

/-- The observable effect of one `_run_sequence` run: how it exited, the
active set in force while lines were being delivered, and the active set
after the `finally` block ran. -/
structure RunResult where
  exit : RunExit
  activeDuring : Finset Nat
  finalActive : Finset Nat

/-- Embeds `_run_sequence` (textually identical in both files): add the
channel to the active set, run the delivery loop, catch `Exception` (which
does not catch `asyncio.CancelledError`), and discard the channel in the
`finally` block on every exit path. -/
def runSequence (oracle : Nat → StepOutcome) (active : Finset Nat) (ch : Nat)
    (lines : List String) : RunResult :=
  let during := insert ch active
  let ex :=
    match deliverFrom oracle 0 lines with
    | .ok _ => RunExit.completed
    | .error .delivery => RunExit.errorCaught
    | .error .cancelled => RunExit.cancelledPropagated
  { exit := ex, activeDuring := during, finalActive := during.erase ch }

/-- Exceptions raised by the generated-script strategy: a failure of the
LLM generation call, or one of the validation failures of `_parse_lines`. -/
inductive GenError where
  | llmFailure
  | validation (e : ParseError)
deriving DecidableEq

/-- Embeds the orchestrator `_build_miku_tease_lines` of
miku_fear_line_generator.py: with no generator callback the line list is
empty; otherwise the callback runs inside a `try`, any exception yields an
empty list, and the surviving lines are stripped, filtered and expanded. -/
def buildMikuTeaseLinesGen (s : Settings)
    (cb : Option (Message → Nat → Except GenError (List String)))
    (msg : Message) : List String :=
  let target := targetCount s
  match cb with
  | none => []
  | some f =>
    match f msg target with
    | .error _ => []
    | .ok dyn =>
      let normalized := (dyn.map pyStrip).filter (fun l => l ≠ "")
      if normalized.isEmpty then [] else expandTotal normalized target

/-- Embeds `_run_miku_sequence`: build the lines, skip the sequence when the
list is empty (`none`), otherwise run it. -/
def runMikuSequence (s : Settings)
    (cb : Option (Message → Nat → Except GenError (List String)))
    (oracle : Nat → StepOutcome) (active : Finset Nat) (msg : Message) :
    Option RunResult :=
  let lines := buildMikuTeaseLinesGen s cb msg
  if lines.isEmpty then none
  else some (runSequence oracle active msg.channel_id lines)

/-- The mutable state of `TetoMikuDualMentionHook`
(miku_fear_line_generator.py): this variant has no pending table; the task
registry records the messages whose Miku sequences were spawned. -/
structure HookState2 where
  active : Finset Nat
  tasks : List Message

/-- Embeds `_handle_as_miku` of miku_fear_line_generator.py: a user
dual-mention spawns `_run_miku_sequence(message)` and suppresses the
default reply. -/
def handleAsMiku2 (s : Settings) (msg : Message) (st : HookState2) :
    Bool × HookState2 :=
  if msg.author_bot then (false, st)
  else if !isDualMentionTrigger s msg then (false, st)
  else (true, { st with tasks := st.tasks ++ [msg] })

/-- Embeds `TetoMikuDualMentionHook.handle_message`
(miku_fear_line_generator.py): enabled check, identity check (Miku only),
busy-channel guard, then the Miku handler. -/
def handleMessage2 (s : Settings) (me : Option Nat) (msg : Message)
    (st : HookState2) : Bool × HookState2 :=
  if !s.dual_mention_hook_enabled then (false, st)
  else
    match me with
    | none => (false, st)
    | some meId =>
      if meId ≠ s.miku_bot_id then (false, st)
      else if msg.channel_id ∈ st.active then (false, st)
      else handleAsMiku2 s msg st

/-- A list leads with itself followed by anything. -/
theorem charsLead_append (l r : List Char) : charsLead l (l ++ r) = true := by
  induction l with
  | nil => rfl
  | cons a as ih => simp [charsLead, ih]

/-- A successful leading match is in particular a substring occurrence. -/
theorem charsSub_of_lead (needle hay : List Char) (h : charsLead needle hay = true) :
    charsSub needle hay = true := by
  cases hay with
  | nil =>
    cases needle with
    | nil => rfl
    | cons a as => simp [charsLead] at h
  | cons c rest => simp [charsSub, h]

/-- A string contains any of its own leading segments. -/
theorem strContains_self_append (pre post : String) :
    strContains (pre ++ post) pre = true := by
  unfold strContains
  have hl : (pre ++ post).toList = pre.toList ++ post.toList := by
    cases pre; cases post; simp [String.toList]
  rw [hl]
  exact charsSub_of_lead _ _ (charsLead_append _ _)

/-- With an empty base list the `while` loop of `_expand_lines` never
finishes, whatever the fuel: extending by the empty list does not grow the
accumulator. -/
theorem expandWhile_nil (target : Nat) :
    ∀ (fuel : Nat) (ext : List String), ext.length < target →
      expandWhile fuel [] ext target = none := by
  intro fuel
  induction fuel with
  | zero => intro ext _; rfl
  | succ n ih =>
    intro ext h
    have hstep : expandWhile (n + 1) [] ext target
        = expandWhile n [] (ext ++ []) target := by
      simp [expandWhile, h]
    rw [hstep]
    simpa using ih ext h

/-- Unwinding the loop with fuel one more than the needed iteration count:
the accumulator grows by whole copies of the base list until its length
reaches the target. -/
theorem expandWhile_spec (base : List String) :
    ∀ (fuel : Nat) (ext : List String) (target : Nat),
      target ≤ ext.length + fuel * base.length →
      ∃ k, expandWhile (fuel + 1) base ext target
              = some (ext ++ (List.replicate k base).flatten) ∧
            target ≤ ext.length + k * base.length := by
  intro fuel
  induction fuel with
  | zero =>
    intro ext target h
    have hle : ¬ ext.length < target := by simpa using h
    refine ⟨0, ?_, ?_⟩
    · simp [expandWhile, hle]
    · simpa using h
  | succ n ih =>
    intro ext target h
    by_cases hlt : ext.length < target
    · have hsm : (n + 1) * base.length = n * base.length + base.length :=
        Nat.succ_mul n base.length
      have h' : target ≤ (ext ++ base).length + n * base.length := by
        rw [List.length_append]
        omega
      obtain ⟨k, hk, hlen⟩ := ih (ext ++ base) target h'
      have hstep : expandWhile (n + 1 + 1) base ext target
          = expandWhile (n + 1) base (ext ++ base) target := by
        simp [expandWhile, hlt]
      refine ⟨k + 1, ?_, ?_⟩
      · rw [hstep, hk]
        simp [List.replicate_succ, List.append_assoc]
      · have hkm : (k + 1) * base.length = k * base.length + base.length :=
          Nat.succ_mul k base.length
        rw [List.length_append] at hlen
        omega
    · refine ⟨0, ?_, ?_⟩
      · simp [expandWhile, hlt]
      · simpa using Nat.le_of_not_lt hlt

/-- Length of the concatenation of `m` copies of a list. -/
theorem length_flatten_replicate (l : List String) :
    ∀ m : Nat, ((List.replicate m l).flatten).length = m * l.length := by
  intro m
  induction m with
  | zero => simp
  | succ n ih =>
    have hsm : (n + 1) * l.length = n * l.length + l.length := Nat.succ_mul n l.length
    simp [List.replicate_succ, ih]
    omega

/-- Taking `t` elements from `m` copies is stable under adding one more
copy, provided the `m` copies already cover `t` elements. -/
theorem take_flatten_replicate_succ (l : List String) (t m : Nat)
    (h : t ≤ m * l.length) :
    ((List.replicate (m + 1) l).flatten).take t
      = ((List.replicate m l).flatten).take t := by
  rw [List.replicate_succ' m l, List.flatten_append]
  have hlen : t ≤ ((List.replicate m l).flatten).length := by
    rw [length_flatten_replicate]; exact h
  rw [List.take_append_eq_append_take]
  have h0 : t - ((List.replicate m l).flatten).length = 0 := Nat.sub_eq_zero_of_le hlen
  rw [h0]
  simp

/-- Taking `t` elements from sufficiently many copies of a list does not
depend on how many copies there are. -/
theorem take_flatten_replicate_ge (l : List String) (t : Nat) :
    ∀ m n : Nat, t ≤ m * l.length → t ≤ n * l.length →
      ((List.replicate m l).flatten).take t = ((List.replicate n l).flatten).take t := by
  have bridge : ∀ (j m : Nat), t ≤ m * l.length →
      ((List.replicate (m + j) l).flatten).take t
        = ((List.replicate m l).flatten).take t := by
    intro j
    induction j with
    | zero => intro m _; rfl
    | succ i ih =>
      intro m hm
      have hmi : t ≤ (m + i) * l.length := by
        have hmono : m * l.length ≤ (m + i) * l.length :=
          Nat.mul_le_mul_right _ (Nat.le_add_right m i)
        omega
      have hadd : m + (i + 1) = (m + i) + 1 := by omega
      rw [hadd, take_flatten_replicate_succ l t (m + i) hmi, ih m hm]
  intro m n hm hn
  rcases Nat.le_total m n with h | h
  · obtain ⟨j, rfl⟩ := Nat.le.dest h
    exact (bridge j m hm).symm
  · obtain ⟨j, rfl⟩ := Nat.le.dest h
    exact bridge j n hn

/-- Characterisation of `_expand_lines` for a non-empty base list: the
result is the base list cyclically repeated and truncated to the target. -/
theorem expandLines_eq (base : List String) (hb : base ≠ []) (target : Nat) :
    expandLines base target
      = some (((List.replicate target base).flatten).take target) := by
  have hpos : 1 ≤ base.length := List.length_pos.mpr hb
  by_cases hle : target ≤ base.length
  · have hrep : ((List.replicate target base).flatten).take target = base.take target := by
      cases target with
      | zero => simp
      | succ m =>
        rw [List.replicate_succ, List.flatten_cons, List.take_append_eq_append_take,
          Nat.sub_eq_zero_of_le hle]
        simp
    simp [expandLines, hle, hrep]
  · have hfuel : target ≤ base.length + target * base.length := by
      have hmul : target ≤ target * base.length := Nat.le_mul_of_pos_right _ hpos
      omega
    obtain ⟨k, hk, hlen⟩ := expandWhile_spec base target base target hfuel
    have hjoin : base ++ (List.replicate k base).flatten
        = (List.replicate (k + 1) base).flatten := by
      simp [List.replicate_succ]
    have hkm : (k + 1) * base.length = k * base.length + base.length :=
      Nat.succ_mul k base.length
    have htake : ((List.replicate (k + 1) base).flatten).take target
        = ((List.replicate target base).flatten).take target := by
      apply take_flatten_replicate_ge
      · omega
      · have hmul : target ≤ target * base.length := Nat.le_mul_of_pos_right _ hpos
        omega
    simp only [expandLines, if_neg hle]
    rw [hk]
    have hfin : (base ++ (List.replicate k base).flatten).take target
        = ((List.replicate target base).flatten).take target := by
      rw [hjoin, htake]
    simp [hfin]

/-- The totalised expansion always returns exactly `target` lines for a
non-empty base. -/
theorem expandTotal_length (base : List String) (hb : base ≠ []) (target : Nat) :
    (expandTotal base target).length = target := by
  have h := expandLines_eq base hb target
  have hpos : 1 ≤ base.length := List.length_pos.mpr hb
  simp [expandTotal, h, List.length_take, length_flatten_replicate]
  exact Nat.le_mul_of_pos_right _ hpos

/-- The totalised expansion of a non-empty list keeps its first line when at
least one line is requested. -/
theorem expandTotal_head (l0 : String) (rest : List String) (n : Nat) (hn : 1 ≤ n) :
    (expandTotal (l0 :: rest) n).headD "" = l0 := by
  cases n with
  | zero => omega
  | succ m =>
    have h := expandLines_eq (l0 :: rest) (by simp) (m + 1)
    simp [expandTotal, h, List.replicate_succ]

/-- C1 (amended to non-empty base lists): `_expand_lines` returns a result
of exactly `target` lines; when `target ≤ length` it is the first `target`
lines, otherwise the base list cyclically repeated end-to-end and truncated
to `target`; re-applying `_expand_lines` to its own output with the same
target returns it unchanged. -/
theorem expand_lines_spec (base : List String) (target : Nat) (hb : base ≠ []) :
    expandLines base target
        = some (((List.replicate target base).flatten).take target) ∧
    (expandTotal base target).length = target ∧
    (target ≤ base.length → expandTotal base target = base.take target) ∧
    expandLines (expandTotal base target) target = some (expandTotal base target) := by
  refine ⟨expandLines_eq base hb target, expandTotal_length base hb target, ?_, ?_⟩
  · intro hle
    simp [expandTotal, expandLines, hle]
  · have hlen := expandTotal_length base hb target
    have h1 : target ≤ (expandTotal base target).length := by omega
    simp [expandLines, h1, List.take_of_length_le (le_of_eq hlen)]

/-- Witness for C1 at base `["a", "b"]` and target `5`. -/
theorem expand_lines_spec_witness :
    expandLines ["a", "b"] 5
        = some (((List.replicate 5 ["a", "b"]).flatten).take 5) ∧
    (expandTotal ["a", "b"] 5).length = 5 ∧
    (5 ≤ (["a", "b"] : List String).length →
      expandTotal ["a", "b"] 5 = (["a", "b"] : List String).take 5) ∧
    expandLines (expandTotal ["a", "b"] 5) 5 = some (expandTotal ["a", "b"] 5) :=
  expand_lines_spec ["a", "b"] 5 (by decide)

/-- C1 counterexample: on the empty base list with target `1` the Python
`while` loop never terminates (see `expandWhile_nil` for fuel-independence),
so `_expand_lines` produces no list at all, refuting the claim for every
base list. -/
theorem expand_lines_empty_no_result : expandLines [] 1 = none := rfl

/-- C9: for every non-empty base line list and every target count,
`_expand_lines` terminates and returns a result. -/
theorem expand_lines_terminates (base : List String) (target : Nat) (hb : base ≠ []) :
    (expandLines base target).isSome = true := by
  rw [expandLines_eq base hb target]
  rfl

/-- Witness for C9 at base `["x"]` and target `9`. -/
theorem expand_lines_terminates_witness : (expandLines ["x"] 9).isSome = true :=
  expand_lines_terminates ["x"] 9 (by decide)

/-- C4: the joint-trigger predicate returns true iff both identity markers
occur among the mentioned ids of the message; it is a pure function of the
message and the settings. -/
theorem dual_mention_trigger_iff (s : Settings) (msg : Message) :
    isDualMentionTrigger s msg = true ↔
      s.teto_bot_id ∈ msg.mentions ∧ s.miku_bot_id ∈ msg.mentions := by
  simp [isDualMentionTrigger]

/-- C3: for an entry recorded at `p.created_at` with the given timeout,
running the expiry sweep at `now` and then taking the entry of that channel
returns absent when the age exceeds the timeout, and otherwise returns the
entry exactly once — a second take on the same channel is absent. -/
theorem pending_expire_take (pending : Nat → Option PendingDualMention) (ch : Nat)
    (p : PendingDualMention) (now timeout : ℚ) (hp : pending ch = some p) :
    (now - p.created_at > timeout →
      (takePending (expirePending now timeout pending) ch).1 = none) ∧
    (now - p.created_at ≤ timeout →
      (takePending (expirePending now timeout pending) ch).1 = some p ∧
      (takePending (takePending (expirePending now timeout pending) ch).2 ch).1 = none) := by
  constructor
  · intro h
    simp [takePending, expirePending, hp, h]
  · intro h
    have hnot : ¬ (now - p.created_at > timeout) := not_lt.mpr h
    refine ⟨?_, ?_⟩
    · simp [takePending, expirePending, hp, hnot]
    · simp [takePending]

/-- Witness for C3: entry created at time 0 on channel 1, sweep at time 3
with timeout 5. -/
theorem pending_expire_take_witness :
    ((3 : ℚ) - (⟨0, 99⟩ : PendingDualMention).created_at > 5 →
      (takePending (expirePending 3 5
        (fun c => if c = 1 then some ⟨0, 99⟩ else none)) 1).1 = none) ∧
    ((3 : ℚ) - (⟨0, 99⟩ : PendingDualMention).created_at ≤ 5 →
      (takePending (expirePending 3 5
        (fun c => if c = 1 then some ⟨0, 99⟩ else none)) 1).1 = some ⟨0, 99⟩ ∧
      (takePending (takePending (expirePending 3 5
        (fun c => if c = 1 then some ⟨0, 99⟩ else none)) 1).2 1).1 = none) :=
  pending_expire_take (fun c => if c = 1 then some ⟨0, 99⟩ else none) 1 ⟨0, 99⟩ 3 5 rfl

/-- C2 (amended: the spec has the two conditions swapped): `_parse_lines`
fails with the "empty output" condition exactly when the normalized text
body is empty before splitting, and with the "unparseable output" condition
exactly when the body is non-empty but no lines survive parsing. -/
theorem parse_lines_error_conditions (normalize : String → String)
    (jdec : String → Option JValue) (rawOutput : String) (lineCount mid : Nat)
    (material : List String) :
    (parseLines normalize jdec rawOutput lineCount mid material
        = .error .emptyOutput ↔ pyStrip (normalize rawOutput) = "") ∧
    (parseLines normalize jdec rawOutput lineCount mid material
        = .error .unparseableOutput ↔
      pyStrip (normalize rawOutput) ≠ "" ∧
      extractLinesFromText jdec (pyStrip (normalize rawOutput)) = []) := by
  by_cases h1 : pyStrip (normalize rawOutput) = ""
  · constructor <;> simp [parseLines, h1]
  · cases hE : extractLinesFromText jdec (pyStrip (normalize rawOutput)) with
    | nil => constructor <;> simp [parseLines, h1, hE]
    | cons l0 rest =>
      cases hg : (!material.isEmpty &&
          !hasMaterialOverlap (fixMention mid (l0 :: rest)) material) with
      | false => constructor <;> simp [parseLines, h1, hE, hg]
      | true => constructor <;> simp [parseLines, h1, hE, hg]

/-- C2 counterexample: on the raw output `"- \n* "` (only bullet markers,
so the normalized body is non-empty but no lines survive) the code raises
the "unparseable output" condition, while the claim requires "unparseable
output" to occur exactly when the normalized body was empty. -/
theorem parse_lines_error_swap_cex :
    parseLines (fun s => s) (fun _ => none) "- \n* " 3 123 []
        = .error .unparseableOutput ∧
    ¬ pyStrip ((fun s : String => s) "- \n* ") = "" :=
  ⟨rfl, by decide⟩

/-- C7 (amended: at least one requested line): when no parsed line contains
the required mention token, the token is prepended to the first line, so any
successfully returned script has the token in line 1; and when the
material-word list is non-empty, `_parse_lines` fails with the "ignored
material" condition exactly when none of its first five words occurs in the
lower-cased concatenated line text. -/
theorem parse_lines_mention_material (normalize : String → String)
    (jdec : String → Option JValue) (rawOutput : String) (lineCount mid : Nat)
    (material : List String) (hcnt : 1 ≤ lineCount) :
    (∀ out, parseLines normalize jdec rawOutput lineCount mid material = .ok out →
      strContains (joinWith " "
          (extractLinesFromText jdec (pyStrip (normalize rawOutput))))
          (mentionToken mid) = false →
      out.headD "" = mentionToken mid ++ " "
          ++ (extractLinesFromText jdec (pyStrip (normalize rawOutput))).headD "" ∧
      strContains (out.headD "") (mentionToken mid) = true) ∧
    (parseLines normalize jdec rawOutput lineCount mid material
        = .error .ignoredMaterial ↔
      pyStrip (normalize rawOutput) ≠ "" ∧
      extractLinesFromText jdec (pyStrip (normalize rawOutput)) ≠ [] ∧
      material ≠ [] ∧
      hasMaterialOverlap
        (fixMention mid (extractLinesFromText jdec (pyStrip (normalize rawOutput))))
        material = false) := by
  constructor
  · intro out hok hno
    by_cases h1 : pyStrip (normalize rawOutput) = ""
    · simp [parseLines, h1] at hok
    · cases hE : extractLinesFromText jdec (pyStrip (normalize rawOutput)) with
      | nil => simp [parseLines, h1, hE] at hok
      | cons l0 rest =>
        rw [hE] at hno
        have hfix : fixMention mid (l0 :: rest)
            = (mentionToken mid ++ " " ++ l0) :: rest := by
          simp [fixMention, hno]
        cases hg : (!material.isEmpty &&
            !hasMaterialOverlap (fixMention mid (l0 :: rest)) material) with
        | true => simp [parseLines, h1, hE, hg] at hok
        | false =>
          have hout : out = expandTotal (fixMention mid (l0 :: rest)) lineCount := by
            simp [parseLines, h1, hE, hg] at hok
            exact hok.symm
          have hhead : out.headD "" = mentionToken mid ++ " " ++ l0 := by
            rw [hout, hfix]
            exact expandTotal_head _ rest lineCount hcnt
          refine ⟨by simpa [hE] using hhead, ?_⟩
          rw [hhead]
          have hassoc : mentionToken mid ++ " " ++ l0
              = mentionToken mid ++ (" " ++ l0) := by
            rw [String.append_assoc]
          rw [hassoc]
          exact strContains_self_append (mentionToken mid) (" " ++ l0)
  · by_cases h1 : pyStrip (normalize rawOutput) = ""
    · constructor <;> simp [parseLines, h1]
    · cases hE : extractLinesFromText jdec (pyStrip (normalize rawOutput)) with
      | nil => constructor <;> simp [parseLines, h1, hE]
      | cons l0 rest =>
        cases hg : (!material.isEmpty &&
            !hasMaterialOverlap (fixMention mid (l0 :: rest)) material) with
        | false =>
          have hLHS : parseLines normalize jdec rawOutput lineCount mid material
              = .ok (expandTotal (fixMention mid (l0 :: rest)) lineCount) := by
            simp [parseLines, h1, hE, hg]
          rw [hLHS]
          constructor
          · intro hcontra
            simp at hcontra
          · rintro ⟨-, -, hmat, hov⟩
            rw [Bool.and_eq_false_iff] at hg
            rcases hg with hg | hg
            · simp [List.isEmpty_iff] at hg
              exact absurd hg hmat
            · simp at hg
              rw [hg] at hov
              simp at hov
        | true =>
          have hLHS : parseLines normalize jdec rawOutput lineCount mid material
              = .error .ignoredMaterial := by
            simp [parseLines, h1, hE, hg]
          rw [hLHS]
          rw [Bool.and_eq_true] at hg
          obtain ⟨hmat, hov⟩ := hg
          rw [Bool.not_eq_true'] at hov
          have hmat' : material ≠ [] := by
            intro hcontra
            rw [hcontra] at hmat
            simp at hmat
          simp [hE, h1, hmat', hov]

/-- C7 counterexample: with requested line count 0 the returned script is
empty, so it contains no mention in line 1 even though the mention token was
absent from every parsed line (the claim as stated quantifies over every
target count). -/
theorem parse_lines_mention_cex :
    parseLines (fun s => s) (fun _ => none) "Hey there" 0 123 [] = .ok [] ∧
    strContains (joinWith " " (extractLinesFromText (fun _ => none)
        (pyStrip ((fun s : String => s) "Hey there")))) (mentionToken 123) = false :=
  ⟨rfl, rfl⟩

/-- Witness for C7 at raw output `"Hey there"`, line count 3, mention id
123, no material words. -/
theorem parse_lines_mention_material_witness :
    (∀ out, parseLines (fun s => s) (fun _ => none) "Hey there" 3 123 [] = .ok out →
      strContains (joinWith " "
          (extractLinesFromText (fun _ => none)
            (pyStrip ((fun s : String => s) "Hey there"))))
          (mentionToken 123) = false →
      out.headD "" = mentionToken 123 ++ " "
          ++ (extractLinesFromText (fun _ => none)
              (pyStrip ((fun s : String => s) "Hey there"))).headD "" ∧
      strContains (out.headD "") (mentionToken 123) = true) ∧
    (parseLines (fun s => s) (fun _ => none) "Hey there" 3 123 []
        = .error .ignoredMaterial ↔
      pyStrip ((fun s : String => s) "Hey there") ≠ "" ∧
      extractLinesFromText (fun _ => none)
        (pyStrip ((fun s : String => s) "Hey there")) ≠ [] ∧
      ([] : List String) ≠ [] ∧
      hasMaterialOverlap
        (fixMention 123 (extractLinesFromText (fun _ => none)
          (pyStrip ((fun s : String => s) "Hey there")))) [] = false) :=
  parse_lines_mention_material (fun s => s) (fun _ => none) "Hey there" 3 123 []
    (by decide)

/-- C5 (amended): a message on a busy channel is never reported as handled,
records no pending entry, launches no task and leaves the active set
unchanged; the pending table is changed only by the expiry sweep that runs
before the busy-guard (entries can disappear, never appear or change). -/
theorem handle_message_busy (s : Settings) (me : Option Nat) (now : ℚ)
    (msg : Message) (st : HookState) (st2 : HookState2)
    (h : msg.channel_id ∈ st.active) (h2 : msg.channel_id ∈ st2.active) :
    (handleMessage s me now msg st).1 = false ∧
    (handleMessage s me now msg st).2.active = st.active ∧
    (handleMessage s me now msg st).2.tasks = st.tasks ∧
    (∀ c, (handleMessage s me now msg st).2.pending c = st.pending c ∨
          (handleMessage s me now msg st).2.pending c = none) ∧
    handleMessage2 s me msg st2 = (false, st2) := by
  have key : handleMessage s me now msg st = (false, st) ∨
      handleMessage s me now msg st
        = (false,
           { st with pending :=
               expirePending now s.teto_wait_miku_timeout_seconds st.pending }) := by
    unfold handleMessage
    cases hen : s.dual_mention_hook_enabled with
    | false => left; simp
    | true =>
      cases me with
      | none => left; simp
      | some meId =>
        right
        simp [h]
  have key2 : handleMessage2 s me msg st2 = (false, st2) := by
    unfold handleMessage2
    cases hen : s.dual_mention_hook_enabled with
    | false => simp
    | true =>
      cases me with
      | none => simp
      | some meId =>
        by_cases hm : meId = s.miku_bot_id
        · simp [hm, h2]
        · simp [hm]
  refine ⟨?_, ?_, ?_, ?_, key2⟩
  · rcases key with k | k <;> rw [k]
  · rcases key with k | k <;> rw [k]
  · rcases key with k | k <;> rw [k]
  · intro c
    rcases key with k | k
    · rw [k]; left; rfl
    · rw [k]
      cases hc : st.pending c with
      | none => right; simp [expirePending, hc]
      | some p =>
        by_cases hexp : now - p.created_at > s.teto_wait_miku_timeout_seconds
        · right; simp [expirePending, hc, hexp]
        · left; simp [expirePending, hc, hexp]

/-- C5 counterexample: the expiry sweep runs before the busy-guard, so a
message on a busy channel (channel 2) still removes the stale entry of
channel 1 from the pending table — the table is not left unchanged. -/
theorem handle_message_busy_cex :
    (⟨500, 2, 55, false, []⟩ : Message).channel_id ∈
        (⟨fun c => if c = 1 then some ⟨0, 99⟩ else none, {2}, []⟩ : HookState).active ∧
    (handleMessage ⟨true, 7, 8, 5, 3⟩ (some 7) 10 ⟨500, 2, 55, false, []⟩
        ⟨fun c => if c = 1 then some ⟨0, 99⟩ else none, {2}, []⟩).1 = false ∧
    (⟨fun c => if c = 1 then some ⟨0, 99⟩ else none, {2}, []⟩ : HookState).pending 1
        = some ⟨0, 99⟩ ∧
    (handleMessage ⟨true, 7, 8, 5, 3⟩ (some 7) 10 ⟨500, 2, 55, false, []⟩
        ⟨fun c => if c = 1 then some ⟨0, 99⟩ else none, {2}, []⟩).2.pending 1
        = none := by
  refine ⟨by simp, ?_, rfl, ?_⟩
  · simp [handleMessage]
  · simp [handleMessage, expirePending]
    norm_num

/-- Witness for C5: busy channel 4 in both hook variants. -/
theorem handle_message_busy_witness :
    (handleMessage ⟨true, 7, 8, 5, 3⟩ (some 8) 2 ⟨2000, 4, 55, false, []⟩
        ⟨fun _ => none, {4}, []⟩).1 = false ∧
    (handleMessage ⟨true, 7, 8, 5, 3⟩ (some 8) 2 ⟨2000, 4, 55, false, []⟩
        ⟨fun _ => none, {4}, []⟩).2.active
      = (⟨fun _ => none, {4}, []⟩ : HookState).active ∧
    (handleMessage ⟨true, 7, 8, 5, 3⟩ (some 8) 2 ⟨2000, 4, 55, false, []⟩
        ⟨fun _ => none, {4}, []⟩).2.tasks
      = (⟨fun _ => none, {4}, []⟩ : HookState).tasks ∧
    (∀ c, (handleMessage ⟨true, 7, 8, 5, 3⟩ (some 8) 2 ⟨2000, 4, 55, false, []⟩
        ⟨fun _ => none, {4}, []⟩).2.pending c
          = (⟨fun _ => none, {4}, []⟩ : HookState).pending c ∨
      (handleMessage ⟨true, 7, 8, 5, 3⟩ (some 8) 2 ⟨2000, 4, 55, false, []⟩
        ⟨fun _ => none, {4}, []⟩).2.pending c = none) ∧
    handleMessage2 ⟨true, 7, 8, 5, 3⟩ (some 8) ⟨2000, 4, 55, false, []⟩ ⟨{4}, []⟩
      = (false, ⟨{4}, []⟩) :=
  handle_message_busy ⟨true, 7, 8, 5, 3⟩ (some 8) 2 ⟨2000, 4, 55, false, []⟩
    ⟨fun _ => none, {4}, []⟩ ⟨{4}, []⟩ (by simp) (by simp)

/-- C6: `_run_sequence` holds the channel in the active set while lines are
delivered, removes it on every termination path (the final active set is the
prior set without the channel, so the channel is never left active), catches
a delivery error inside the runner, and propagates only cancellation. -/
theorem run_sequence_guard (oracle : Nat → StepOutcome) (active : Finset Nat)
    (ch : Nat) (lines : List String) :
    ch ∈ (runSequence oracle active ch lines).activeDuring ∧
    (runSequence oracle active ch lines).finalActive = active.erase ch ∧
    ch ∉ (runSequence oracle active ch lines).finalActive ∧
    (deliverFrom oracle 0 lines = Except.error SeqExn.delivery →
      (runSequence oracle active ch lines).exit = RunExit.errorCaught) ∧
    ((runSequence oracle active ch lines).exit = RunExit.cancelledPropagated →
      deliverFrom oracle 0 lines = Except.error SeqExn.cancelled) := by
  refine ⟨?_, ?_, ?_, ?_, ?_⟩
  · simp [runSequence]
  · simp [runSequence, Finset.erase_insert_eq_erase]
  · simp [runSequence]
  · intro h
    simp [runSequence, h]
  · intro h
    cases hd : deliverFrom oracle 0 lines with
    | ok u => simp [runSequence, hd] at h
    | error e =>
      cases e with
      | delivery => simp [runSequence, hd] at h
      | cancelled => rfl

/-- Witness for C6: a two-line sequence on channel 3 whose first delivery
raises. -/
theorem run_sequence_guard_witness :
    3 ∈ (runSequence (fun _ => StepOutcome.deliveryError) {3} 3
        ["x", "y"]).activeDuring ∧
    (runSequence (fun _ => StepOutcome.deliveryError) {3} 3 ["x", "y"]).finalActive
      = ({3} : Finset Nat).erase 3 ∧
    3 ∉ (runSequence (fun _ => StepOutcome.deliveryError) {3} 3 ["x", "y"]).finalActive ∧
    (deliverFrom (fun _ => StepOutcome.deliveryError) 0 ["x", "y"]
        = Except.error SeqExn.delivery →
      (runSequence (fun _ => StepOutcome.deliveryError) {3} 3 ["x", "y"]).exit
        = RunExit.errorCaught) ∧
    ((runSequence (fun _ => StepOutcome.deliveryError) {3} 3 ["x", "y"]).exit
        = RunExit.cancelledPropagated →
      deliverFrom (fun _ => StepOutcome.deliveryError) 0 ["x", "y"]
        = Except.error SeqExn.cancelled) :=
  run_sequence_guard (fun _ => StepOutcome.deliveryError) {3} 3 ["x", "y"]

/-- C8: when the generated-script strategy raises (generation failure or any
validation failure), the orchestrator function `_build_miku_tease_lines` returns
the empty list and `_run_miku_sequence` skips the sequence entirely. -/
theorem gen_failure_contained (s : Settings)
    (f : Message → Nat → Except GenError (List String)) (e : GenError)
    (oracle : Nat → StepOutcome) (active : Finset Nat) (msg : Message)
    (hf : f msg (targetCount s) = .error e) :
    buildMikuTeaseLinesGen s (some f) msg = [] ∧
    runMikuSequence s (some f) oracle active msg = none := by
  have hb : buildMikuTeaseLinesGen s (some f) msg = [] := by
    simp [buildMikuTeaseLinesGen, hf]
  exact ⟨hb, by simp [runMikuSequence, hb]⟩

/-- Witness for C8: a generator callback that raises a validation failure. -/
theorem gen_failure_contained_witness :
    buildMikuTeaseLinesGen ⟨true, 7, 8, 5, 3⟩
        (some fun _ _ => .error (.validation .emptyOutput)) ⟨1, 2, 3, false, []⟩
      = [] ∧
    runMikuSequence ⟨true, 7, 8, 5, 3⟩
        (some fun _ _ => .error (.validation .emptyOutput)) (fun _ => StepOutcome.ok)
        ∅ ⟨1, 2, 3, false, []⟩ = none :=
  gen_failure_contained ⟨true, 7, 8, 5, 3⟩ (fun _ _ => .error (.validation .emptyOutput))
    (.validation .emptyOutput) (fun _ => StepOutcome.ok) ∅ ⟨1, 2, 3, false, []⟩ rfl

/-- C10: a partner-confirmation message (bot-authored by Miku) that consumes
an unexpired pending entry and launches the Teto sequence still makes
`handle_message` return false, so it never suppresses default replies. -/
theorem partner_confirmation_returns_false (s : Settings) (now : ℚ) (msg : Message)
    (st : HookState) (p : PendingDualMention)
    (hen : s.dual_mention_hook_enabled = true)
    (hbot : msg.author_bot = true)
    (hauth : msg.author_id = s.miku_bot_id)
    (hbusy : msg.channel_id ∉ st.active)
    (hp : st.pending msg.channel_id = some p)
    (hfresh : ¬ now - p.created_at > s.teto_wait_miku_timeout_seconds) :
    (handleMessage s (some s.teto_bot_id) now msg st).1 = false ∧
    (handleMessage s (some s.teto_bot_id) now msg st).2.tasks
      = st.tasks ++ [⟨msg.channel_id, p.trigger_message_id, buildTetoFearLines s⟩] ∧
    (handleMessage s (some s.teto_bot_id) now msg st).2.pending msg.channel_id
      = none := by
  have hres : handleMessage s (some s.teto_bot_id) now msg st
      = handleTetoBotMessage s msg
          { st with pending := expirePending now s.teto_wait_miku_timeout_seconds st.pending } := by
    unfold handleMessage handleAsTeto
    simp [hen, hbusy, hbot]
  have hpend : expirePending now s.teto_wait_miku_timeout_seconds st.pending
      msg.channel_id = some p := by
    simp [expirePending, hp, hfresh]
  rw [hres]
  unfold handleTetoBotMessage
  simp [hauth, takePending, hpend]

/-- Witness for C10: a Miku bot message on channel 1 consuming the entry
recorded at time 0, observed at time 3 with timeout 5. -/
theorem partner_confirmation_returns_false_witness :
    (handleMessage ⟨true, 7, 8, 5, 2⟩ (some (⟨true, 7, 8, 5, 2⟩ : Settings).teto_bot_id)
        3 ⟨500, 1, 8, true, []⟩
        ⟨fun c => if c = 1 then some ⟨0, 42⟩ else none, ∅, []⟩).1 = false ∧
    (handleMessage ⟨true, 7, 8, 5, 2⟩ (some (⟨true, 7, 8, 5, 2⟩ : Settings).teto_bot_id)
        3 ⟨500, 1, 8, true, []⟩
        ⟨fun c => if c = 1 then some ⟨0, 42⟩ else none, ∅, []⟩).2.tasks
      = (⟨fun c => if c = 1 then some ⟨0, 42⟩ else none, ∅, []⟩ : HookState).tasks
        ++ [⟨(⟨500, 1, 8, true, []⟩ : Message).channel_id,
             (⟨0, 42⟩ : PendingDualMention).trigger_message_id,
             buildTetoFearLines ⟨true, 7, 8, 5, 2⟩⟩] ∧
    (handleMessage ⟨true, 7, 8, 5, 2⟩ (some (⟨true, 7, 8, 5, 2⟩ : Settings).teto_bot_id)
        3 ⟨500, 1, 8, true, []⟩
        ⟨fun c => if c = 1 then some ⟨0, 42⟩ else none, ∅, []⟩).2.pending
          (⟨500, 1, 8, true, []⟩ : Message).channel_id = none :=
  partner_confirmation_returns_false ⟨true, 7, 8, 5, 2⟩ 3 ⟨500, 1, 8, true, []⟩
    ⟨fun c => if c = 1 then some ⟨0, 42⟩ else none, ∅, []⟩ ⟨0, 42⟩
    rfl rfl rfl (by simp) rfl (by norm_num)
